import Mathlib

/-!
Shallow embedding of the AbnormalyDetector worker (ingestion normalizer in
`Worker.py` and the risk-inference job in `risk_job.py`), together with
theorems settling the specification claims about it.

Python strings are modelled through their character lists; Python ints as
`Int`; Python floats as `ℚ` (exact arithmetic); Python dicts either as
association lists or as functions to `Option`; raised exceptions as
`Except String`.
-/

namespace AbDetect

/-! ### Python string primitives (character-list models) -/

/-- Model of Python `str.strip()`: drop whitespace from both ends. -/
def pyStrip (s : String) : String :=
  ⟨((s.data.dropWhile Char.isWhitespace).reverse.dropWhile Char.isWhitespace).reverse⟩

/-- Model of Python `str.isdigit()` (ASCII digits): non-empty and all digits. -/
def isDigits (l : List Char) : Bool :=
  !l.isEmpty && l.all Char.isDigit

/-- Decimal value of a digit list (Python `int(...)` on a digit string). -/
def digitsToNat (l : List Char) : Nat :=
  l.foldl (fun n c => n * 10 + (c.toNat - 48)) 0

/-- Model of Python `str.lower()` (ASCII). -/
def strLower (s : String) : String :=
  ⟨s.data.map Char.toLower⟩

namespace Worker

/-! ### Enum mappings and `parse_enum` (Worker.py lines 32-84) -/

def SEVERITY_MAP : List (String × Int) :=
  [("Info", 0), ("Warning", 1), ("Error", 2), ("Attack", 3)]

def EVENT_TYPE_MAP : List (String × Int) :=
  [("Unknown", 0), ("SQLInjection", 1), ("XSS", 2), ("RateLimiting", 10),
   ("TooManyRequestsBurst", 11), ("SuspiciousScan", 12), ("BotDetected", 13),
   ("WafRuleTriggered", 20), ("FirewallBlock", 21)]

/-- A Python value as it can reach `parse_enum`: `None`, an `int`, a `str`,
or any other type (carrying only a rendering of itself). -/
inductive PyEnumVal where
  | vnone
  | vint (i : Int)
  | vstr (s : String)
  | vother (rendering : String)
deriving Repr, DecidableEq

/-- The code's test `v.isdigit() or (v.startswith("-") and v[1:].isdigit())`. -/
def isIntLiteral (v : String) : Bool :=
  isDigits v.data || (v.data.head? == some '-' && isDigits v.data.tail)

/-- Python `int(v)` on a string passing `isIntLiteral`. -/
def intOfLit (v : String) : Int :=
  if v.data.head? == some '-' then -(Int.ofNat (digitsToNat v.data.tail))
  else Int.ofNat (digitsToNat v.data)

/-- The case-insensitive retry: first mapping entry whose lowered key equals
the lowered input (Worker.py lines 80-82). -/
def lookupCaseInsensitive (v : String) (mapping : List (String × Int)) : Option Int :=
  (mapping.find? (fun kv => strLower kv.1 == strLower v)).map (·.2)

/-- Embedding of `parse_enum(value, mapping, field_name)` (Worker.py 63-84). -/
def parse_enum (value : PyEnumVal) (mapping : List (String × Int))
    (fieldName : String) : Except String Int :=
  match value with
  | .vnone => .error ("Missing field: " ++ fieldName)
  | .vint i => .ok i
  | .vstr s =>
    let v := pyStrip s
    if isIntLiteral v then .ok (intOfLit v)
    else
      match mapping.lookup v with
      | some n => .ok n
      | none =>
        match lookupCaseInsensitive v mapping with
        | some n => .ok n
        | none => .error ("Invalid " ++ fieldName ++ ": " ++ s)
  | .vother r => .error ("Invalid " ++ fieldName ++ ": " ++ r)

/-! ### `parse_datetime` (Worker.py lines 87-113), with a model of Python's
`datetime.fromisoformat` (CPython ≤ 3.10 grammar) -/

/-- A parsed datetime: calendar fields plus an optional UTC offset in
seconds (`none` = naive datetime). -/
structure PyDateTime where
  year : Nat
  month : Nat
  day : Nat
  hour : Nat
  minute : Nat
  second : Nat
  microsecond : Nat
  tzOffsetSeconds : Option Int
deriving Repr, DecidableEq

def isLeapYear (y : Nat) : Bool :=
  (y % 4 == 0 && y % 100 != 0) || y % 400 == 0

def daysInMonth (y m : Nat) : Nat :=
  if m == 2 then (if isLeapYear y then 29 else 28)
  else if m == 4 || m == 6 || m == 9 || m == 11 then 30
  else 31

/-- Parse exactly `YYYY-MM-DD` with calendar validation. -/
def parseDatePart : List Char → Option (Nat × Nat × Nat)
  | [y1, y2, y3, y4, h1, m1, m2, h2, d1, d2] =>
    if h1 == '-' && h2 == '-' && [y1, y2, y3, y4, m1, m2, d1, d2].all Char.isDigit then
      let y := digitsToNat [y1, y2, y3, y4]
      let m := digitsToNat [m1, m2]
      let d := digitsToNat [d1, d2]
      if 1 ≤ y && 1 ≤ m && m ≤ 12 && 1 ≤ d && d ≤ daysInMonth y m then
        some (y, m, d)
      else none
    else none
  | _ => none

/-- CPython's `_parse_hh_mm_ss_ff`: parses `HH[:MM[:SS[.fff[fff]]]]` — a
bare `HH` is accepted, the fraction has exactly 3 or 6 digits, and no
range validation happens here (ranges are checked by the `datetime` and
`timezone` constructors). -/
def parseHMSraw : List Char → Option (Nat × Nat × Nat × Nat)
  | [h1, h2] =>
    if [h1, h2].all Char.isDigit then some (digitsToNat [h1, h2], 0, 0, 0)
    else none
  | [h1, h2, c1, m1, m2] =>
    if c1 == ':' && [h1, h2, m1, m2].all Char.isDigit then
      some (digitsToNat [h1, h2], digitsToNat [m1, m2], 0, 0)
    else none
  | [h1, h2, c1, m1, m2, c2, s1, s2] =>
    if c1 == ':' && c2 == ':' && [h1, h2, m1, m2, s1, s2].all Char.isDigit then
      some (digitsToNat [h1, h2], digitsToNat [m1, m2], digitsToNat [s1, s2], 0)
    else none
  | [h1, h2, c1, m1, m2, c2, s1, s2, dot, f1, f2, f3] =>
    if c1 == ':' && c2 == ':' && dot == '.'
        && [h1, h2, m1, m2, s1, s2, f1, f2, f3].all Char.isDigit then
      some (digitsToNat [h1, h2], digitsToNat [m1, m2], digitsToNat [s1, s2],
        digitsToNat [f1, f2, f3] * 1000)
    else none
  | [h1, h2, c1, m1, m2, c2, s1, s2, dot, f1, f2, f3, f4, f5, f6] =>
    if c1 == ':' && c2 == ':' && dot == '.'
        && [h1, h2, m1, m2, s1, s2, f1, f2, f3, f4, f5, f6].all Char.isDigit then
      some (digitsToNat [h1, h2], digitsToNat [m1, m2], digitsToNat [s1, s2],
        digitsToNat [f1, f2, f3, f4, f5, f6])
    else none
  | _ => none

/-- Time-of-day parse: the component parse followed by the `datetime`
constructor's range checks. -/
def parseHMS (l : List Char) : Option (Nat × Nat × Nat × Nat) :=
  match parseHMSraw l with
  | some (h, mi, sec, us) =>
    if h ≤ 23 && mi ≤ 59 && sec ≤ 59 then some (h, mi, sec, us) else none
  | none => none

/-- Split the time substring at the first `+`/`-` (timezone marker). -/
def splitTzChars (l : List Char) : List Char × List Char :=
  match l.findIdx? (fun c => c == '+' || c == '-') with
  | some i => (l.take i, l.drop i)
  | none => (l, [])

/-- Parse an optional trailing timezone offset.  After the sign, CPython
accepts only strings of length 5 (`HH:MM`), 8 (`HH:MM:SS`) or 15
(`HH:MM:SS.ffffff`) — in particular not a 12-char `HH:MM:SS.fff` — and
the `timezone` constructor requires the offset magnitude to be strictly
below 24 hours. -/
def parseTzOffset : List Char → Option (Option Int)
  | [] => some none
  | sign :: rest =>
    if sign == '+' || sign == '-' then
      if rest.length == 5 || rest.length == 8 || rest.length == 15 then
        match parseHMSraw rest with
        | some (h, mi, sec, us) =>
          if (h * 3600 + mi * 60 + sec) * 1000000 + us < 86400000000 then
            let off : Int := Int.ofNat (h * 3600 + mi * 60 + sec)
            some (some (if sign == '-' then -off else off))
          else none
        | none => none
      else none
    else none

/-- Model of `datetime.fromisoformat`: a 10-char date, then optionally one
arbitrary separator character and a time-of-day with optional offset. -/
def fromisoformat (s : String) : Option PyDateTime :=
  let cs := s.data
  if cs.length ≤ 10 then
    match parseDatePart cs with
    | some (y, m, d) => some ⟨y, m, d, 0, 0, 0, 0, none⟩
    | none => none
  else
    match parseDatePart (cs.take 10) with
    | none => none
    | some (y, m, d) =>
      let split := splitTzChars (cs.drop 11)
      match parseHMS split.1, parseTzOffset split.2 with
      | some (h, mi, sec, us), some tz => some ⟨y, m, d, h, mi, sec, us, tz⟩
      | _, _ => none

/-- A Python value as it can reach `parse_datetime`. -/
inductive PyDtVal where
  | dnone
  | ddt (d : PyDateTime)
  | dstr (s : String)
  | dother (rendering : String)
deriving Repr, DecidableEq

/-- The code's `Z` handling: `if s.endswith("Z"): s = s[:-1] + "+00:00"`. -/
def zSubst (s : String) : String :=
  if s.data.getLast? == some 'Z' then ⟨s.data.dropLast ++ "+00:00".data⟩ else s

/-- The code's fallback `s.split("+")[0]`: prefix before the first `+`. -/
def beforePlus (s : String) : String :=
  ⟨s.data.takeWhile (fun c => c != '+')⟩

/-- Embedding of `parse_datetime(value)` (Worker.py 87-113). -/
def parse_datetime (v : PyDtVal) : Except String PyDateTime :=
  match v with
  | .dnone => .error "Missing field: OccurredAt"
  | .ddt d => .ok d
  | .dstr s0 =>
    let s := zSubst (pyStrip s0)
    match fromisoformat s with
    | some d => .ok d
    | none =>
      match fromisoformat (beforePlus s) with
      | some d => .ok d
      | none => .error ("Invalid OccurredAt datetime: " ++ s0)
  | .dother r => .error ("Invalid OccurredAt type: " ++ r)

/-! ### JSON values, a model of `json.loads`, and `parse_request_jsonb`
(Worker.py lines 116-140) -/

/-- A JSON value.  Numbers that are integer literals are kept as `jint`
(as `json.loads` returns Python `int` for them); other numeric literals
keep their raw text. -/
inductive JVal where
  | jnull
  | jbool (b : Bool)
  | jint (n : Int)
  | jnum (raw : String)
  | jstr (s : String)
  | jarr (xs : List JVal)
  | jobj (fields : List (String × JVal))
deriving Repr

/-- JSON whitespace characters. -/
def jsonWs (c : Char) : Bool :=
  c == ' ' || c == '\t' || c == '\n' || c == '\r'

def hexDigitVal (c : Char) : Option Nat :=
  if c.isDigit then some (c.toNat - 48)
  else if 'a' ≤ c && c ≤ 'f' then some (c.toNat - 87)
  else if 'A' ≤ c && c ≤ 'F' then some (c.toNat - 55)
  else none

/-- Parse the remainder of a JSON string literal (after the opening quote),
returning its characters and the rest of the input. -/
def parseJStrChars : Nat → List Char → Option (List Char × List Char)
  | 0, _ => none
  | _, [] => none
  | fuel + 1, c :: rest =>
    if c == '"' then some ([], rest)
    else if c == '\\' then
      match rest with
      | [] => none
      | e :: rest2 =>
        let esc : Option (Char × List Char) :=
          if e == '"' then some ('"', rest2)
          else if e == '\\' then some ('\\', rest2)
          else if e == '/' then some ('/', rest2)
          else if e == 'n' then some ('\n', rest2)
          else if e == 't' then some ('\t', rest2)
          else if e == 'r' then some ('\r', rest2)
          else if e == 'b' then some ('\x08', rest2)
          else if e == 'f' then some ('\x0c', rest2)
          else if e == 'u' then
            match rest2 with
            | a :: b :: c2 :: d :: rest3 =>
              match hexDigitVal a, hexDigitVal b, hexDigitVal c2, hexDigitVal d with
              | some ha, some hb, some hc, some hd =>
                some (Char.ofNat (((ha * 16 + hb) * 16 + hc) * 16 + hd), rest3)
              | _, _, _, _ => none
            | _ => none
          else none
        match esc with
        | some (ch, r) => (parseJStrChars fuel r).map (fun p => (ch :: p.1, p.2))
        | none => none
    else if c.toNat < 32 then none
    else (parseJStrChars fuel rest).map (fun p => (c :: p.1, p.2))

/-- JSON integer part: `0` or a nonzero digit followed by digits. -/
def jIntDigits : List Char → Option (List Char × List Char)
  | [] => none
  | c :: rest =>
    if c == '0' then some ([c], rest)
    else if c.isDigit then
      some (c :: rest.takeWhile Char.isDigit, rest.dropWhile Char.isDigit)
    else none

/-- Parse a JSON number; integer literals become `jint`, others `jnum`. -/
def parseJNum (l : List Char) : Option (JVal × List Char) :=
  let neg := l.head? == some '-'
  let l1 := if neg then l.tail else l
  match jIntDigits l1 with
  | none => none
  | some (ds, rest0) =>
    let fracPart : Option (List Char × List Char) :=
      match rest0 with
      | '.' :: r =>
        let f := r.takeWhile Char.isDigit
        if f.isEmpty then none else some ('.' :: f, r.dropWhile Char.isDigit)
      | _ => some ([], rest0)
    match fracPart with
    | none => none
    | some (fs, rest1) =>
      let expPart : Option (List Char × List Char) :=
        match rest1 with
        | e :: r =>
          if e == 'e' || e == 'E' then
            let se : List Char × List Char :=
              match r with
              | s :: r2 => if s == '+' || s == '-' then ([e, s], r2) else ([e], r)
              | [] => ([e], [])
            let digs := se.2.takeWhile Char.isDigit
            if digs.isEmpty then none
            else some (se.1 ++ digs, se.2.dropWhile Char.isDigit)
          else some ([], rest1)
        | [] => some ([], rest1)
      match expPart with
      | none => none
      | some (es, rest2) =>
        if fs.isEmpty && es.isEmpty then
          let n := Int.ofNat (digitsToNat ds)
          some (.jint (if neg then -n else n), rest2)
        else
          some (.jnum ⟨(if neg then ['-'] else []) ++ ds ++ fs ++ es⟩, rest2)

/-- Python `dict(pairs)` semantics for JSON object members: a repeated
key keeps its first position but takes its last value. -/
def upsertKey (fs : List (String × JVal)) (k : String) (v : JVal) :
    List (String × JVal) :=
  if fs.any (fun kv => kv.1 == k) then
    fs.map (fun kv => if kv.1 == k then (kv.1, v) else kv)
  else fs ++ [(k, v)]

/-- Collapse the parsed member list the way `json.loads` builds its dict. -/
def dedupObjFields (pairs : List (String × JVal)) : List (String × JVal) :=
  pairs.foldl (fun acc kv => upsertKey acc kv.1 kv.2) []

mutual

/-- Parse one JSON value (model of the grammar accepted by `json.loads`,
including its default non-strict constants `NaN`, `Infinity` and
`-Infinity`). -/
def parseJVal : Nat → List Char → Option (JVal × List Char)
  | 0, _ => none
  | fuel + 1, l0 =>
    let l := l0.dropWhile jsonWs
    match l with
    | [] => none
    | c :: rest =>
      if c == 'n' then
        if rest.take 3 == ['u', 'l', 'l'] then some (.jnull, rest.drop 3) else none
      else if c == 't' then
        if rest.take 3 == ['r', 'u', 'e'] then some (.jbool true, rest.drop 3) else none
      else if c == 'f' then
        if rest.take 4 == ['a', 'l', 's', 'e'] then some (.jbool false, rest.drop 4)
        else none
      else if c == 'N' then
        if rest.take 2 == ['a', 'N'] then some (.jnum "NaN", rest.drop 2) else none
      else if c == 'I' then
        if rest.take 7 == ['n', 'f', 'i', 'n', 'i', 't', 'y'] then
          some (.jnum "Infinity", rest.drop 7)
        else none
      else if c == '-' && rest.take 8 == ['I', 'n', 'f', 'i', 'n', 'i', 't', 'y'] then
        some (.jnum "-Infinity", rest.drop 8)
      else if c == '"' then
        (parseJStrChars (rest.length + 1) rest).map (fun p => (.jstr ⟨p.1⟩, p.2))
      else if c == '[' then
        match rest.dropWhile jsonWs with
        | ']' :: r2 => some (.jarr [], r2)
        | r1 => (parseJArrItems fuel r1).map (fun p => (.jarr p.1, p.2))
      else if c == '{' then
        match rest.dropWhile jsonWs with
        | '}' :: r2 => some (.jobj [], r2)
        | r1 => (parseJObjItems fuel r1).map (fun p => (.jobj (dedupObjFields p.1), p.2))
      else parseJNum l

/-- Parse array elements after `[` (at least one element). -/
def parseJArrItems : Nat → List Char → Option (List JVal × List Char)
  | 0, _ => none
  | fuel + 1, l =>
    match parseJVal fuel l with
    | none => none
    | some (v, r) =>
      match r.dropWhile jsonWs with
      | ',' :: r2 => (parseJArrItems fuel r2).map (fun p => (v :: p.1, p.2))
      | ']' :: r2 => some ([v], r2)
      | _ => none

/-- Parse object members after `{` (at least one member). -/
def parseJObjItems : Nat → List Char → Option (List (String × JVal) × List Char)
  | 0, _ => none
  | fuel + 1, l =>
    match l.dropWhile jsonWs with
    | '"' :: r =>
      match parseJStrChars (r.length + 1) r with
      | none => none
      | some (kcs, r2) =>
        match r2.dropWhile jsonWs with
        | ':' :: r4 =>
          match parseJVal fuel r4 with
          | none => none
          | some (v, r5) =>
            match r5.dropWhile jsonWs with
            | ',' :: r7 =>
              (parseJObjItems fuel r7).map (fun p => ((⟨kcs⟩, v) :: p.1, p.2))
            | '}' :: r7 => some ([(⟨kcs⟩, v)], r7)
            | _ => none
        | _ => none
    | _ => none

end

/-- Model of `json.loads`: parse one value, require only whitespace
after it. -/
def jsonLoads (s : String) : Option JVal :=
  match parseJVal (s.data.length + 1) s.data with
  | some (v, rest) => if (rest.dropWhile jsonWs).isEmpty then some v else none
  | none => none

/-- A Python value as it can reach `parse_request_jsonb`. -/
inductive PyReqVal where
  | rnone
  | rdict (fields : List (String × JVal))
  | rlist (xs : List JVal)
  | rstr (s : String)
  | rint (i : Int)
  | rbool (b : Bool)
deriving Repr

/-- Python `str(...)` on the scalar values that reach the final fallback. -/
def pyStrOf : PyReqVal → String
  | .rint i => toString i
  | .rbool b => if b then "True" else "False"
  | .rstr s => s
  | _ => ""

/-- Embedding of `parse_request_jsonb(request_value)` (Worker.py 116-140). -/
def parse_request_jsonb : PyReqVal → Option JVal
  | .rnone => none
  | .rdict fs => some (.jobj fs)
  | .rlist xs => some (.jarr xs)
  | .rstr s0 =>
    let s := pyStrip s0
    if s.data.isEmpty then none
    else
      match jsonLoads s with
      | some v => some v
      | none => some (.jobj [("raw", .jstr s)])
  | v => some (.jobj [("raw", .jstr (pyStrOf v))])

end Worker

namespace RiskJob

/-! ### Events and windowed aggregation (risk_job.py lines 99-138) -/

/-- One fetched event row; `none` models SQL `NULL` / pandas `NaN`
(the code coerces `event_type`/`severity` NaNs to 0 and fills missing
`path`/`method`/`user_agent` with the empty string). -/
structure Event where
  ip : String
  event_type : Option Int
  severity : Option Int
  status_code : Option Int
  method : Option String
  path : Option String
  user_agent : Option String
deriving Repr, DecidableEq

/-- One aggregated feature row (one per IP), risk_job.py 118-136. -/
structure FeatRow where
  ip : String
  events_count : Nat
  attack_type_count : Nat
  suspicious_type_count : Nat
  max_severity : Int
  mean_severity : ℚ
  cnt_403 : Nat
  cnt_4xx : Nat
  uniq_path : Nat
  uniq_method : Nat
  uniq_ua : Nat
  events_rate : ℚ
  ratio_attack_type : ℚ
  ratio_suspicious_type : ℚ
  ratio_403 : ℚ
  ratio_4xx : ℚ
deriving Repr, DecidableEq

/-- `pd.to_numeric(...).fillna(0)` on `event_type`. -/
def evType (e : Event) : Int := e.event_type.getD 0

/-- `pd.to_numeric(...).fillna(0)` on `severity`. -/
def evSev (e : Event) : Int := e.severity.getD 0

def isAttackType (attackTypes : List Int) (e : Event) : Bool :=
  attackTypes.contains (evType e)

def isSuspiciousType (suspiciousTypes : List Int) (e : Event) : Bool :=
  suspiciousTypes.contains (evType e)

/-- `(df["status_code"] == 403).fillna(False)`. -/
def is403 (e : Event) : Bool := e.status_code == some 403

/-- `df["status_code"].between(400, 499).fillna(False)`. -/
def is4xx (e : Event) : Bool :=
  match e.status_code with
  | some c => decide (400 ≤ c ∧ c ≤ 499)
  | none => false

/-- Group maximum of severity (groups are non-empty in the code;
the empty case is given a dummy value). -/
def maxSeverity (group : List Event) : Int :=
  match group.map evSev with
  | [] => 0
  | h :: t => t.foldl max h

/-- The aggregate record for one IP group (risk_job.py 118-136).
`denom` is `events_count.clip(lower=1)`. -/
def buildRow (ip : String) (group : List Event) (windowSec : Nat)
    (attackTypes suspiciousTypes : List Int) : FeatRow :=
  let n := group.length
  let atk := group.countP (isAttackType attackTypes)
  let sus := group.countP (isSuspiciousType suspiciousTypes)
  let c403 := group.countP is403
  let c4xx := group.countP is4xx
  let denom : ℚ := ((max n 1 : Nat) : ℚ)
  { ip := ip
    events_count := n
    attack_type_count := atk
    suspicious_type_count := sus
    max_severity := maxSeverity group
    mean_severity := (((group.map evSev).sum : Int) : ℚ) / (n : ℚ)
    cnt_403 := c403
    cnt_4xx := c4xx
    uniq_path := ((group.map (fun e => e.path.getD "")).dedup).length
    uniq_method := ((group.map (fun e => e.method.getD "")).dedup).length
    uniq_ua := ((group.map (fun e => e.user_agent.getD "")).dedup).length
    events_rate := (n : ℚ) / (windowSec : ℚ)
    ratio_attack_type := (atk : ℚ) / denom
    ratio_suspicious_type := (sus : ℚ) / denom
    ratio_403 := (c403 : ℚ) / denom
    ratio_4xx := (c4xx : ℚ) / denom }

/-- Embedding of `build_features_from_events`: group the events by IP
(one row per distinct IP) and aggregate each group. -/
def build_features_from_events (events : List Event) (windowSec : Nat)
    (attackTypes suspiciousTypes : List Int) : List FeatRow :=
  ((events.map (·.ip)).dedup).map
    (fun ip =>
      buildRow ip (events.filter (fun e => e.ip == ip)) windowSec
        attackTypes suspiciousTypes)

/-! ### Unsupervised scoring (risk_job.py lines 157-164) -/

def maxQ (l : List ℚ) : ℚ :=
  match l with
  | [] => 0
  | h :: t => t.foldl max h

def minQ (l : List ℚ) : ℚ :=
  match l with
  | [] => 0
  | h :: t => t.foldl min h

/-- `risk = (mx - normality) / denom` with
`denom = (mx - mn) if (mx - mn) != 0 else 1.0`. -/
def minmaxRisk (vals : List ℚ) (v : ℚ) : ℚ :=
  let mx := maxQ vals
  let mn := minQ vals
  let denom := if mx - mn ≠ 0 then mx - mn else 1
  (mx - v) / denom

/-- The unsupervised branch of `score_rows`: each raw decision value of the
batch rescaled against the batch. -/
def score_rows_unsup (vals : List ℚ) : List ℚ :=
  vals.map (minmaxRisk vals)

/-! ### Reasons (risk_job.py lines 171-185) -/

/-- Embedding of `infer_reasons(row)`: sequential conditional appends,
then `reasons[:3]`. -/
def infer_reasons (r : FeatRow) : List String :=
  let reasons : List String := []
  let reasons := if r.attack_type_count > 0 then reasons ++ ["attack_event"] else reasons
  let reasons :=
    if r.suspicious_type_count > 0 then reasons ++ ["suspicious_events"] else reasons
  let reasons := if r.events_rate ≥ 2 then reasons ++ ["high_rate"] else reasons
  let reasons := if r.ratio_403 ≥ 3 / 10 then reasons ++ ["403_spike"] else reasons
  let reasons := if r.uniq_path ≥ 20 then reasons ++ ["scan_like"] else reasons
  let reasons := if r.max_severity ≥ 3 then reasons ++ ["high_severity"] else reasons
  reasons.take 3

/-- The spec's description of the reasons derivation: the fixed priority
list of (tag, condition) pairs. -/
def reasonTags (r : FeatRow) : List (String × Bool) :=
  [("attack_event", decide (r.attack_type_count > 0)),
   ("suspicious_events", decide (r.suspicious_type_count > 0)),
   ("high_rate", decide (r.events_rate ≥ 2)),
   ("403_spike", decide (r.ratio_403 ≥ 3 / 10)),
   ("scan_like", decide (r.uniq_path ≥ 20)),
   ("high_severity", decide (r.max_severity ≥ 3))]

/-- The spec's description of `reasons`: matching tags in priority order,
capped at 3. -/
def reasonsSpec (r : FeatRow) : List String :=
  ((((reasonTags r).filter (·.2)).map (·.1)).take 3)

/-! ### Leveling, cooldown and publishing (risk_job.py lines 262-286) -/

/-- A feature row together with its `risk_score`. -/
abbrev ScoredRow := FeatRow × ℚ

/-- `feats.sort_values("risk_score", ascending=False)`. -/
def sortByScoreDesc (rows : List ScoredRow) : List ScoredRow :=
  rows.mergeSort (fun a b => decide (b.2 ≤ a.2))

/-- `high = feats_sorted[feats_sorted["risk_score"] >= HIGH_TH]`. -/
def pickHigh (rows : List ScoredRow) (highTh : ℚ) : List ScoredRow :=
  (sortByScoreDesc rows).filter (fun r => decide (highTh ≤ r.2))

/-- `med = feats_sorted[(risk_score >= MED_TH) & (risk_score < HIGH_TH)]`. -/
def pickMed (rows : List ScoredRow) (highTh medTh : ℚ) : List ScoredRow :=
  (sortByScoreDesc rows).filter (fun r => decide (medTh ≤ r.2) && decide (r.2 < highTh))

/-- The order in which `add_group(high, ...)` then `add_group(med, ...)`
walk the rows. -/
def processedRows (rows : List ScoredRow) (highTh medTh : ℚ) : List ScoredRow :=
  pickHigh rows highTh ++ pickMed rows highTh medTh

/-- One published alert item (risk_job.py 276-283). -/
structure AlertItem where
  ip : String
  risk_score : ℚ
  risk_level : String
  ttl_sec : Int
  reasons : List String
  window_sec : Nat
deriving Repr, DecidableEq

/-- The process-wide `last_sent` map (`ip -> epoch seconds`). -/
abbrev LastSent := String → Option Int

def mkItem (r : ScoredRow) (level : String) (ttl : Int) (windowSec : Nat) : AlertItem :=
  ⟨r.1.ip, r.2, level, ttl, infer_reasons r.1, windowSec⟩

/-- `ip in last_sent and (now_epoch - last_sent[ip] < COOLDOWN_SEC)`. -/
def inCooldown (cooldownSec nowEpoch : Int) (lastSent : LastSent) (ip : String) : Bool :=
  match lastSent ip with
  | some t => decide (nowEpoch - t < cooldownSec)
  | none => false

/-- Embedding of `add_group(sub, level, ttl)`: walk the rows, skip the ones
in cooldown, otherwise update `last_sent` and emit an item. -/
def add_group (cooldownSec nowEpoch : Int) (level : String) (ttl : Int)
    (windowSec : Nat) (lastSent : LastSent) :
    List ScoredRow → LastSent × List AlertItem
  | [] => (lastSent, [])
  | r :: rest =>
    if inCooldown cooldownSec nowEpoch lastSent r.1.ip then
      add_group cooldownSec nowEpoch level ttl windowSec lastSent rest
    else
      let lastSent2 : LastSent := fun x => if x = r.1.ip then some nowEpoch else lastSent x
      let p := add_group cooldownSec nowEpoch level ttl windowSec lastSent2 rest
      (p.1, mkItem r level ttl windowSec :: p.2)

/-- One leveler pass of a cycle: `add_group(high, "high", HIGH_TTL_SEC)`
then `add_group(med, "medium", MED_TTL_SEC)`, items concatenated. -/
def cycleItems (cooldownSec nowEpoch highTtl medTtl : Int) (windowSec : Nat)
    (lastSent : LastSent) (high med : List ScoredRow) : LastSent × List AlertItem :=
  let p1 := add_group cooldownSec nowEpoch "high" highTtl windowSec lastSent high
  let p2 := add_group cooldownSec nowEpoch "medium" medTtl windowSec p1.1 med
  (p2.1, p1.2 ++ p2.2)

/-- One full cycle from fetched events to published items: aggregate,
score (one score per row, covering both model modes), bucket, level. -/
def run_cycle (events : List Event) (windowSec : Nat)
    (attackTypes suspiciousTypes : List Int) (score : FeatRow → ℚ)
    (highTh medTh : ℚ) (cooldownSec nowEpoch highTtl medTtl : Int)
    (lastSent : LastSent) : LastSent × List AlertItem :=
  let feats := build_features_from_events events windowSec attackTypes suspiciousTypes
  let scored := feats.map (fun f => (f, score f))
  cycleItems cooldownSec nowEpoch highTtl medTtl windowSec lastSent
    (pickHigh scored highTh) (pickMed scored highTh medTh)

/-! ### Model artifact loading (risk_job.py lines 81-97 and 229-239) -/

/-- The loaded artifact (only its presence matters here). -/
structure Artifact where
  mode : String
deriving Repr, DecidableEq

/-- The artifact file as the cycle observes it: whether the path exists,
its modification time, and what `joblib.load` would do. -/
structure ArtifactFile where
  fileExists : Bool
  mtime : Int
  loadResult : Except String Artifact
deriving Repr

/-- `state: { "mtime": float|None, "artifact": dict|None }`. -/
structure LoadState where
  mtime : Option Int
  artifact : Option Artifact
deriving Repr, DecidableEq

/-- Embedding of `load_model_artifact_if_changed(state)`: a missing file
clears the state; an unchanged mtime with a cached artifact is a no-op;
otherwise `load` runs, and an exception it raises propagates (there is no
handler around it). -/
def load_model_artifact_if_changed (fs : ArtifactFile) (st : LoadState) :
    Except String LoadState :=
  if !fs.fileExists then .ok ⟨none, none⟩
  else if st.mtime == some fs.mtime && !(st.artifact == none) then .ok st
  else
    match fs.loadResult with
    | .error e => .error e
    | .ok a => .ok ⟨some fs.mtime, some a⟩

/-- How one `main_loop` iteration starts. -/
inductive CycleStart where
  | crashed (e : String)
  | idleNoArtifact (st : LoadState)
  | proceed (st : LoadState) (a : Artifact)
deriving Repr, DecidableEq

/-- The artifact phase of one `main_loop` iteration (risk_job.py 229-239):
the call to `load_model_artifact_if_changed` is not wrapped in any
try/except, so a load error escapes the loop. -/
def main_loop_artifact_phase (fs : ArtifactFile) (st : LoadState) : CycleStart :=
  match load_model_artifact_if_changed fs st with
  | .error e => .crashed e
  | .ok st2 =>
    match st2.artifact with
    | none => .idleNoArtifact st2
    | some a => .proceed st2 a

end RiskJob

end AbDetect

namespace AbDetect

open Worker

/-- Claim C4: the enum parser returns integer inputs unchanged; parses a
stripped base-10 integer literal (optionally negative); otherwise an exact
mapping-key match returns the mapped code, else a case-insensitive match
returns its code, else it fails; `None` fails with a missing-field error;
any other type fails with an invalid-type error.  In particular
`resolve(3, SeverityMap, "Severity") = 3`, `resolve("Attack", ..) = 3`,
`resolve("attack", ..) = 3`, and `resolve(None, .., "Severity")` fails. -/
theorem parse_enum_spec :
    (∀ i m f, parse_enum (.vint i) m f = .ok i)
    ∧ (∀ s m f, isIntLiteral (pyStrip s) = true →
        parse_enum (.vstr s) m f = .ok (intOfLit (pyStrip s)))
    ∧ (∀ s m f n, isIntLiteral (pyStrip s) = false →
        m.lookup (pyStrip s) = some n →
        parse_enum (.vstr s) m f = .ok n)
    ∧ (∀ s m f n, isIntLiteral (pyStrip s) = false →
        m.lookup (pyStrip s) = none →
        lookupCaseInsensitive (pyStrip s) m = some n →
        parse_enum (.vstr s) m f = .ok n)
    ∧ (∀ s m f, isIntLiteral (pyStrip s) = false →
        m.lookup (pyStrip s) = none →
        lookupCaseInsensitive (pyStrip s) m = none →
        parse_enum (.vstr s) m f = .error ("Invalid " ++ f ++ ": " ++ s))
    ∧ (∀ m f, parse_enum .vnone m f = .error ("Missing field: " ++ f))
    ∧ (∀ r m f, parse_enum (.vother r) m f = .error ("Invalid " ++ f ++ ": " ++ r))
    ∧ parse_enum (.vint 3) SEVERITY_MAP "Severity" = .ok 3
    ∧ parse_enum (.vstr "Attack") SEVERITY_MAP "Severity" = .ok 3
    ∧ parse_enum (.vstr "attack") SEVERITY_MAP "Severity" = .ok 3
    ∧ parse_enum .vnone SEVERITY_MAP "Severity" = .error "Missing field: Severity" := by
  refine ⟨fun i m f => rfl, ?_, ?_, ?_, ?_, fun m f => rfl, fun r m f => rfl,
    rfl, rfl, rfl, rfl⟩
  · intro s m f h
    simp [parse_enum, h]
  · intro s m f n h hl
    simp [parse_enum, h, hl]
  · intro s m f n h hl hci
    simp [parse_enum, h, hl, hci]
  · intro s m f h hl hci
    simp [parse_enum, h, hl, hci]

/-- Witness for C4: the hypothesis-bearing clauses of `parse_enum_spec`
instantiated at concrete inputs. -/
theorem parse_enum_spec_witness :
    parse_enum (.vstr " -42 ") SEVERITY_MAP "Severity"
        = .ok (intOfLit (pyStrip " -42 "))
    ∧ parse_enum (.vstr "Warning") SEVERITY_MAP "Severity" = .ok 1
    ∧ parse_enum (.vstr "ERROR") SEVERITY_MAP "Severity" = .ok 2
    ∧ parse_enum (.vstr "Fatal") SEVERITY_MAP "Severity"
        = .error "Invalid Severity: Fatal" :=
  ⟨parse_enum_spec.2.1 " -42 " SEVERITY_MAP "Severity" (by decide),
   parse_enum_spec.2.2.1 "Warning" SEVERITY_MAP "Severity" 1 (by decide) (by decide),
   parse_enum_spec.2.2.2.1 "ERROR" SEVERITY_MAP "Severity" 2 (by decide) (by decide)
     (by decide),
   parse_enum_spec.2.2.2.2.1 "Fatal" SEVERITY_MAP "Severity" (by decide) (by decide)
     (by decide)⟩

/-- Claim C5: `parse_datetime` returns an already-typed timestamp unchanged;
an ISO-8601 string parses, with a trailing `Z` treated as UTC; if the full
parse fails, parsing is retried after stripping everything from the first
`+` onward; if that also fails, parsing fails.  In particular both
`"2025-12-25T19:10:30.123Z"` and `"2025-12-25T19:10:30+00:00"` parse
without error; a bare-hour time (`"2025-01-02T03"`, `"2025-12-25T19Z"`)
parses directly, and a malformed `HH:MM:SS.fff` offset falls back to the
degraded naive parse. -/
theorem parse_datetime_spec :
    (∀ d, parse_datetime (.ddt d) = .ok d)
    ∧ (∀ s d, fromisoformat (zSubst (pyStrip s)) = some d →
        parse_datetime (.dstr s) = .ok d)
    ∧ (∀ s d, fromisoformat (zSubst (pyStrip s)) = none →
        fromisoformat (beforePlus (zSubst (pyStrip s))) = some d →
        parse_datetime (.dstr s) = .ok d)
    ∧ (∀ s, fromisoformat (zSubst (pyStrip s)) = none →
        fromisoformat (beforePlus (zSubst (pyStrip s))) = none →
        parse_datetime (.dstr s) = .error ("Invalid OccurredAt datetime: " ++ s))
    ∧ parse_datetime (.dstr "2025-12-25T19:10:30.123Z")
        = .ok ⟨2025, 12, 25, 19, 10, 30, 123000, some 0⟩
    ∧ parse_datetime (.dstr "2025-12-25T19:10:30+00:00")
        = .ok ⟨2025, 12, 25, 19, 10, 30, 0, some 0⟩
    ∧ parse_datetime (.dstr "2025-01-02T03")
        = .ok ⟨2025, 1, 2, 3, 0, 0, 0, none⟩
    ∧ parse_datetime (.dstr "2025-12-25T19Z")
        = .ok ⟨2025, 12, 25, 19, 0, 0, 0, some 0⟩
    ∧ parse_datetime (.dstr "2025-01-02T03:04:05+01:00:00.123")
        = .ok ⟨2025, 1, 2, 3, 4, 5, 0, none⟩ := by
  refine ⟨fun d => rfl, ?_, ?_, ?_, rfl, rfl, rfl, rfl, rfl⟩
  · intro s d h
    simp [parse_datetime, h]
  · intro s d h h2
    simp [parse_datetime, h, h2]
  · intro s h h2
    simp [parse_datetime, h, h2]

/-- Witness for C5: the hypothesis-bearing clauses of `parse_datetime_spec`
instantiated at concrete inputs (a clean parse, a degraded parse after
stripping a malformed offset, and a failing parse). -/
theorem parse_datetime_spec_witness :
    parse_datetime (.dstr "2025-01-02T03:04:05")
        = .ok ⟨2025, 1, 2, 3, 4, 5, 0, none⟩
    ∧ parse_datetime (.dstr "2025-01-02T03:04:05+0:0")
        = .ok ⟨2025, 1, 2, 3, 4, 5, 0, none⟩
    ∧ parse_datetime (.dstr "not a date")
        = .error "Invalid OccurredAt datetime: not a date" :=
  ⟨parse_datetime_spec.2.1 "2025-01-02T03:04:05" ⟨2025, 1, 2, 3, 4, 5, 0, none⟩
     (by decide),
   parse_datetime_spec.2.2.1 "2025-01-02T03:04:05+0:0" ⟨2025, 1, 2, 3, 4, 5, 0, none⟩
     (by decide) (by decide),
   parse_datetime_spec.2.2.2.1 "not a date" (by decide) (by decide)⟩

/-- Counterexample for claim C6: the code wraps the *stripped* string, not
the original string, and a string that is empty after stripping yields
`None` instead of a wrapped value.  At input `" a "` the code produces
`{"raw": "a"}` where the claim predicts `{"raw": " a "}`; at input `" "`
the code produces `null` where the claim predicts `{"raw": " "}`. -/
theorem parse_request_jsonb_counterexample :
    parse_request_jsonb (.rstr " a ") = some (.jobj [("raw", .jstr "a")])
    ∧ parse_request_jsonb (.rstr " a ") ≠ some (.jobj [("raw", .jstr " a ")])
    ∧ parse_request_jsonb (.rstr " ") = none
    ∧ parse_request_jsonb (.rstr " ") ≠ some (.jobj [("raw", .jstr " ")]) := by
  refine ⟨rfl, ?_, rfl, ?_⟩
  · intro h
    rw [show parse_request_jsonb (.rstr " a ") = some (.jobj [("raw", .jstr "a")])
      from rfl] at h
    simp only [Option.some.injEq, JVal.jobj.injEq, List.cons.injEq, Prod.mk.injEq,
      JVal.jstr.injEq] at h
    exact absurd h.1.2 (by decide)
  · intro h
    rw [show parse_request_jsonb (.rstr " ") = none from rfl] at h
    exact Option.noConfusion h

/-- Claim C6 as amended: object/array values pass through unchanged;
`None` yields `null`; a string is first stripped — if empty after
stripping the result is `null`, else it is parsed as JSON when possible
and otherwise wrapped as a `raw` object holding the *stripped* string;
any other scalar is stringified and wrapped the same way.  In particular
the string `(x7b)"a":1(x7d)` yields the object `a ↦ 1`, `"not json"`
yields `raw ↦ "not json"`, and the integer `42` yields `raw ↦ "42"`;
`"NaN"` parses to the float constant rather than being wrapped, and a
duplicate object key keeps only its last value. -/
theorem parse_request_jsonb_amended :
    (∀ fs, parse_request_jsonb (.rdict fs) = some (.jobj fs))
    ∧ (∀ xs, parse_request_jsonb (.rlist xs) = some (.jarr xs))
    ∧ parse_request_jsonb .rnone = none
    ∧ (∀ s, (pyStrip s).data.isEmpty = true → parse_request_jsonb (.rstr s) = none)
    ∧ (∀ s v, (pyStrip s).data.isEmpty = false → jsonLoads (pyStrip s) = some v →
        parse_request_jsonb (.rstr s) = some v)
    ∧ (∀ s, (pyStrip s).data.isEmpty = false → jsonLoads (pyStrip s) = none →
        parse_request_jsonb (.rstr s) = some (.jobj [("raw", .jstr (pyStrip s))]))
    ∧ (∀ i, parse_request_jsonb (.rint i) = some (.jobj [("raw", .jstr (toString i))]))
    ∧ (∀ b, parse_request_jsonb (.rbool b)
        = some (.jobj [("raw", .jstr (if b then "True" else "False"))]))
    ∧ parse_request_jsonb (.rstr "\x7b\"a\":1\x7d") = some (.jobj [("a", .jint 1)])
    ∧ parse_request_jsonb (.rstr "not json")
        = some (.jobj [("raw", .jstr "not json")])
    ∧ parse_request_jsonb (.rint 42) = some (.jobj [("raw", .jstr "42")])
    ∧ parse_request_jsonb (.rstr "NaN") = some (.jnum "NaN")
    ∧ parse_request_jsonb (.rstr "\x7b\"a\":1,\"a\":2\x7d")
        = some (.jobj [("a", .jint 2)]) := by
  refine ⟨fun fs => rfl, fun xs => rfl, rfl, ?_, ?_, ?_, fun i => rfl, fun b => rfl,
    rfl, rfl, rfl, rfl, rfl⟩
  · intro s h
    simp [parse_request_jsonb, h]
  · intro s v h hl
    simp [parse_request_jsonb, h, hl]
  · intro s h hl
    simp [parse_request_jsonb, h, hl]

/-- Witness for C6: the hypothesis-bearing clauses of
`parse_request_jsonb_amended` instantiated at concrete inputs. -/
theorem parse_request_jsonb_amended_witness :
    parse_request_jsonb (.rstr "  ") = none
    ∧ parse_request_jsonb (.rstr " [1, true] ") = some (.jarr [.jint 1, .jbool true])
    ∧ parse_request_jsonb (.rstr "plain text")
        = some (.jobj [("raw", .jstr (pyStrip "plain text"))]) :=
  ⟨parse_request_jsonb_amended.2.2.2.1 "  " (by decide),
   parse_request_jsonb_amended.2.2.2.2.1 " [1, true] " (.jarr [.jint 1, .jbool true])
     (by decide) rfl,
   parse_request_jsonb_amended.2.2.2.2.2.1 "plain text" (by decide) rfl⟩

/-! ### Helper lemmas for the risk-job theorems -/

lemma ratioBounds (k n : Nat) (hk : k ≤ n) :
    0 ≤ (k : ℚ) / ((max n 1 : Nat) : ℚ) ∧ (k : ℚ) / ((max n 1 : Nat) : ℚ) ≤ 1 := by
  have hd : (0 : ℚ) < ((max n 1 : Nat) : ℚ) := by
    have h1 : (1 : Nat) ≤ max n 1 := le_max_right n 1
    exact_mod_cast Nat.lt_of_lt_of_le Nat.zero_lt_one h1
  refine ⟨by positivity, ?_⟩
  rw [div_le_one hd]
  have h2 : k ≤ max n 1 := le_trans hk (le_max_left n 1)
  exact_mod_cast h2

lemma foldlMax_ge_init (h : ℚ) (t : List ℚ) : h ≤ t.foldl max h := by
  induction t generalizing h with
  | nil => exact le_refl h
  | cons a t ih => exact le_trans (le_max_left h a) (ih (max h a))

lemma foldlMin_le_init (h : ℚ) (t : List ℚ) : t.foldl min h ≤ h := by
  induction t generalizing h with
  | nil => exact le_refl h
  | cons a t ih => exact le_trans (ih (min h a)) (min_le_left h a)

lemma mem_le_foldlMax (x h : ℚ) (t : List ℚ) (hx : x ∈ t) : x ≤ t.foldl max h := by
  induction t generalizing h with
  | nil => cases hx
  | cons a t ih =>
    rcases List.mem_cons.mp hx with rfl | h2
    · exact le_trans (le_max_right h x) (foldlMax_ge_init (max h x) t)
    · exact ih (max h a) h2

lemma foldlMin_le_mem (x h : ℚ) (t : List ℚ) (hx : x ∈ t) : t.foldl min h ≤ x := by
  induction t generalizing h with
  | nil => cases hx
  | cons a t ih =>
    rcases List.mem_cons.mp hx with rfl | h2
    · exact le_trans (foldlMin_le_init (min h x) t) (min_le_right h x)
    · exact ih (min h a) h2

lemma le_maxQ (vals : List ℚ) (v : ℚ) (hv : v ∈ vals) : v ≤ RiskJob.maxQ vals := by
  cases vals with
  | nil => cases hv
  | cons h t =>
    rcases List.mem_cons.mp hv with rfl | h2
    · exact foldlMax_ge_init v t
    · exact mem_le_foldlMax v h t h2

lemma minQ_le (vals : List ℚ) (v : ℚ) (hv : v ∈ vals) : RiskJob.minQ vals ≤ v := by
  cases vals with
  | nil => cases hv
  | cons h t =>
    rcases List.mem_cons.mp hv with rfl | h2
    · exact foldlMin_le_init v t
    · exact foldlMin_le_mem v h t h2

lemma foldlMax_mem (h : ℚ) (t : List ℚ) : t.foldl max h = h ∨ t.foldl max h ∈ t := by
  induction t generalizing h with
  | nil => exact Or.inl rfl
  | cons a t ih =>
    have he : (a :: t).foldl max h = t.foldl max (max h a) := rfl
    rw [he]
    rcases ih (max h a) with h1 | h1
    · rw [h1]
      rcases max_choice h a with h2 | h2
      · exact Or.inl h2
      · exact Or.inr (by rw [h2]; exact List.mem_cons_self a t)
    · exact Or.inr (List.mem_cons_of_mem a h1)

lemma foldlMin_mem (h : ℚ) (t : List ℚ) : t.foldl min h = h ∨ t.foldl min h ∈ t := by
  induction t generalizing h with
  | nil => exact Or.inl rfl
  | cons a t ih =>
    have he : (a :: t).foldl min h = t.foldl min (min h a) := rfl
    rw [he]
    rcases ih (min h a) with h1 | h1
    · rw [h1]
      rcases min_choice h a with h2 | h2
      · exact Or.inl h2
      · exact Or.inr (by rw [h2]; exact List.mem_cons_self a t)
    · exact Or.inr (List.mem_cons_of_mem a h1)

lemma maxQ_mem (vals : List ℚ) (hne : vals ≠ []) : RiskJob.maxQ vals ∈ vals := by
  cases vals with
  | nil => exact absurd rfl hne
  | cons h t =>
    rcases foldlMax_mem h t with h1 | h1
    · rw [show RiskJob.maxQ (h :: t) = t.foldl max h from rfl, h1]
      exact List.mem_cons_self h t
    · exact List.mem_cons_of_mem h h1

lemma minQ_mem (vals : List ℚ) (hne : vals ≠ []) : RiskJob.minQ vals ∈ vals := by
  cases vals with
  | nil => exact absurd rfl hne
  | cons h t =>
    rcases foldlMin_mem h t with h1 | h1
    · rw [show RiskJob.minQ (h :: t) = t.foldl min h from rfl, h1]
      exact List.mem_cons_self h t
    · exact List.mem_cons_of_mem h h1

lemma takeThreeLen (l : List String) : (l.take 3).length ≤ 3 := by
  rw [List.length_take]
  exact min_le_left _ _

/-- Claim C3: each derived ratio field of every aggregated per-IP row
equals the corresponding count divided by `max(events_count, 1)`, is
always defined (the denominator is at least 1), and lies in `[0, 1]`. -/
theorem aggregation_ratio_invariant (events : List RiskJob.Event) (w : Nat)
    (aT sT : List Int) :
    ∀ r ∈ RiskJob.build_features_from_events events w aT sT,
      (r.ratio_attack_type
          = (r.attack_type_count : ℚ) / ((max r.events_count 1 : Nat) : ℚ)
        ∧ 0 ≤ r.ratio_attack_type ∧ r.ratio_attack_type ≤ 1)
      ∧ (r.ratio_suspicious_type
          = (r.suspicious_type_count : ℚ) / ((max r.events_count 1 : Nat) : ℚ)
        ∧ 0 ≤ r.ratio_suspicious_type ∧ r.ratio_suspicious_type ≤ 1)
      ∧ (r.ratio_403 = (r.cnt_403 : ℚ) / ((max r.events_count 1 : Nat) : ℚ)
        ∧ 0 ≤ r.ratio_403 ∧ r.ratio_403 ≤ 1)
      ∧ (r.ratio_4xx = (r.cnt_4xx : ℚ) / ((max r.events_count 1 : Nat) : ℚ)
        ∧ 0 ≤ r.ratio_4xx ∧ r.ratio_4xx ≤ 1) := by
  intro r hr
  simp only [RiskJob.build_features_from_events, List.mem_map] at hr
  obtain ⟨ip, _hip, rfl⟩ := hr
  refine ⟨⟨rfl, ?_, ?_⟩, ⟨rfl, ?_, ?_⟩, ⟨rfl, ?_, ?_⟩, ⟨rfl, ?_, ?_⟩⟩
  · exact (ratioBounds _ _ (List.countP_le_length _)).1
  · exact (ratioBounds _ _ (List.countP_le_length _)).2
  · exact (ratioBounds _ _ (List.countP_le_length _)).1
  · exact (ratioBounds _ _ (List.countP_le_length _)).2
  · exact (ratioBounds _ _ (List.countP_le_length _)).1
  · exact (ratioBounds _ _ (List.countP_le_length _)).2
  · exact (ratioBounds _ _ (List.countP_le_length _)).1
  · exact (ratioBounds _ _ (List.countP_le_length _)).2

/-- Witness for C3: the ratio bounds at a concrete two-event window. -/
theorem aggregation_ratio_invariant_witness :
    0 ≤ (RiskJob.buildRow "1.2.3.4"
        [⟨"1.2.3.4", some 1, some 3, some 403, some "GET", some "/a", some "ua"⟩,
         ⟨"1.2.3.4", some 0, some 1, some 200, some "GET", some "/b", some "ua"⟩]
        60 [1, 2] [10, 11]).ratio_attack_type
    ∧ (RiskJob.buildRow "1.2.3.4"
        [⟨"1.2.3.4", some 1, some 3, some 403, some "GET", some "/a", some "ua"⟩,
         ⟨"1.2.3.4", some 0, some 1, some 200, some "GET", some "/b", some "ua"⟩]
        60 [1, 2] [10, 11]).ratio_attack_type ≤ 1 :=
  ⟨((aggregation_ratio_invariant
      [⟨"1.2.3.4", some 1, some 3, some 403, some "GET", some "/a", some "ua"⟩,
       ⟨"1.2.3.4", some 0, some 1, some 200, some "GET", some "/b", some "ua"⟩]
      60 [1, 2] [10, 11] _ (List.mem_singleton_self _)).1).2.1,
   ((aggregation_ratio_invariant
      [⟨"1.2.3.4", some 1, some 3, some 403, some "GET", some "/a", some "ua"⟩,
       ⟨"1.2.3.4", some 0, some 1, some 200, some "GET", some "/b", some "ua"⟩]
      60 [1, 2] [10, 11] _ (List.mem_singleton_self _)).1).2.2⟩

/-- Claim C7: in unsupervised mode each batch score equals
`(max - value) / (max - min)` with the denominator replaced by 1 when all
batch values are equal; every score lies in `[0, 1]`; in a degenerate
batch every score is 0. -/
theorem unsup_score_spec (vals : List ℚ) (hne : vals ≠ []) :
    (∀ v ∈ vals,
      RiskJob.minmaxRisk vals v
        = (RiskJob.maxQ vals - v)
            / (if ∀ a ∈ vals, ∀ b ∈ vals, a = b then 1
               else RiskJob.maxQ vals - RiskJob.minQ vals))
    ∧ (∀ r ∈ RiskJob.score_rows_unsup vals, 0 ≤ r ∧ r ≤ 1)
    ∧ ((∀ a ∈ vals, ∀ b ∈ vals, a = b) →
        ∀ r ∈ RiskJob.score_rows_unsup vals, r = 0) := by
  have hmx := maxQ_mem vals hne
  have hmn := minQ_mem vals hne
  have hiff : RiskJob.maxQ vals - RiskJob.minQ vals = 0
      ↔ (∀ a ∈ vals, ∀ b ∈ vals, a = b) := by
    constructor
    · intro h0 a ha b hb
      have ha2 : a = RiskJob.minQ vals :=
        le_antisymm (by have := le_maxQ vals a ha; linarith) (minQ_le vals a ha)
      have hb2 : b = RiskJob.minQ vals :=
        le_antisymm (by have := le_maxQ vals b hb; linarith) (minQ_le vals b hb)
      rw [ha2, hb2]
    · intro hall
      have := hall _ hmx _ hmn
      linarith
  refine ⟨?_, ?_, ?_⟩
  · intro v _hv
    by_cases h0 : RiskJob.maxQ vals - RiskJob.minQ vals = 0
    · rw [if_pos (hiff.mp h0)]
      simp [RiskJob.minmaxRisk, h0]
    · rw [if_neg (fun h => h0 (hiff.mpr h))]
      simp [RiskJob.minmaxRisk, h0]
  · intro r hr
    obtain ⟨v, hv, rfl⟩ := List.mem_map.mp hr
    by_cases h0 : RiskJob.maxQ vals - RiskJob.minQ vals = 0
    · have hvmx : v = RiskJob.maxQ vals :=
        le_antisymm (le_maxQ vals v hv) (by have := minQ_le vals v hv; linarith)
      have : RiskJob.minmaxRisk vals v = 0 := by
        simp [RiskJob.minmaxRisk, h0, hvmx]
      rw [this]
      exact ⟨le_refl 0, by norm_num⟩
    · have hpos : 0 < RiskJob.maxQ vals - RiskJob.minQ vals := by
        have h1 := minQ_le vals _ hmx
        rcases lt_or_eq_of_le (sub_nonneg.mpr h1) with h2 | h2
        · exact h2
        · exact absurd h2.symm h0
      have he : RiskJob.minmaxRisk vals v
          = (RiskJob.maxQ vals - v) / (RiskJob.maxQ vals - RiskJob.minQ vals) := by
        simp [RiskJob.minmaxRisk, h0]
      rw [he]
      constructor
      · exact div_nonneg (sub_nonneg.mpr (le_maxQ vals v hv)) (le_of_lt hpos)
      · rw [div_le_one hpos]
        have := minQ_le vals v hv
        linarith
  · intro hall r hr
    obtain ⟨v, hv, rfl⟩ := List.mem_map.mp hr
    have h0 := hiff.mpr hall
    have hvmx : v = RiskJob.maxQ vals :=
      le_antisymm (le_maxQ vals v hv) (by have := minQ_le vals v hv; linarith)
    simp [RiskJob.minmaxRisk, h0, hvmx]

/-- Witness for C7: the bounds on a concrete batch and the zero score on a
concrete degenerate batch. -/
theorem unsup_score_spec_witness :
    (0 ≤ RiskJob.minmaxRisk [1, 3, 2] 1 ∧ RiskJob.minmaxRisk [1, 3, 2] 1 ≤ 1)
    ∧ RiskJob.minmaxRisk [5, 5] 5 = 0 :=
  ⟨(unsup_score_spec [1, 3, 2] (by decide)).2.1 (RiskJob.minmaxRisk [1, 3, 2] 1)
     (by exact List.mem_map.mpr ⟨1, by decide, rfl⟩),
   (unsup_score_spec [5, 5] (by decide)).2.2 (by decide) (RiskJob.minmaxRisk [5, 5] 5)
     (by exact List.mem_map.mpr ⟨5, by decide, rfl⟩)⟩

/-- Claim C9: `infer_reasons` evaluates the six conditions in the fixed
priority order, keeps the matching tags in that order, and caps the list
at 3 entries. -/
theorem reasons_priority_cap (r : RiskJob.FeatRow) :
    RiskJob.infer_reasons r = RiskJob.reasonsSpec r
    ∧ (RiskJob.infer_reasons r).length ≤ 3 := by
  constructor
  · simp only [RiskJob.infer_reasons, RiskJob.reasonsSpec, RiskJob.reasonTags]
    by_cases h1 : r.attack_type_count > 0 <;>
      by_cases h2 : r.suspicious_type_count > 0 <;>
      by_cases h3 : r.events_rate ≥ 2 <;>
      by_cases h4 : r.ratio_403 ≥ 3 / 10 <;>
      by_cases h5 : r.uniq_path ≥ 20 <;>
      by_cases h6 : r.max_severity ≥ 3 <;>
      simp [h1, h2, h3, h4, h5, h6]
  · exact takeThreeLen _

/-- Claim C8: a row is in the high bucket iff `risk_score ≥ HIGH_TH`, in
the medium bucket iff `MED_TH ≤ risk_score < HIGH_TH`, and is dropped iff
`risk_score < MED_TH`; all high rows are processed before all medium
rows. -/
theorem level_thresholds (rows : List RiskJob.ScoredRow) (highTh medTh : ℚ)
    (hth : medTh < highTh) :
    (∀ r, r ∈ RiskJob.pickHigh rows highTh ↔ r ∈ rows ∧ highTh ≤ r.2)
    ∧ (∀ r, r ∈ RiskJob.pickMed rows highTh medTh
        ↔ r ∈ rows ∧ medTh ≤ r.2 ∧ r.2 < highTh)
    ∧ (∀ r ∈ rows,
        (r ∉ RiskJob.pickHigh rows highTh ∧ r ∉ RiskJob.pickMed rows highTh medTh)
          ↔ r.2 < medTh)
    ∧ (∀ (i j : Nat) (hi : i < (RiskJob.processedRows rows highTh medTh).length)
        (hj : j < (RiskJob.processedRows rows highTh medTh).length),
        highTh ≤ ((RiskJob.processedRows rows highTh medTh).get ⟨i, hi⟩).2 →
        ((RiskJob.processedRows rows highTh medTh).get ⟨j, hj⟩).2 < highTh →
        i < j) := by
  have hperm := List.mergeSort_perm rows (fun a b => decide (b.2 ≤ a.2))
  have hmemSort : ∀ r : RiskJob.ScoredRow,
      r ∈ RiskJob.sortByScoreDesc rows ↔ r ∈ rows := fun r => hperm.mem_iff
  have hhigh : ∀ r, r ∈ RiskJob.pickHigh rows highTh ↔ r ∈ rows ∧ highTh ≤ r.2 := by
    intro r
    rw [RiskJob.pickHigh, List.mem_filter, hmemSort r]
    simp
  have hmed : ∀ r, r ∈ RiskJob.pickMed rows highTh medTh
      ↔ r ∈ rows ∧ medTh ≤ r.2 ∧ r.2 < highTh := by
    intro r
    rw [RiskJob.pickMed, List.mem_filter, hmemSort r]
    simp
  refine ⟨hhigh, hmed, ?_, ?_⟩
  · intro r hr
    simp only [hhigh r, hmed r, hr, true_and]
    constructor
    · rintro ⟨h1, h2⟩
      by_contra h3
      push_neg at h3
      exact h2 ⟨h3, not_le.mp h1⟩
    · intro h
      exact ⟨not_le.mpr (h.trans hth), fun hc => absurd hc.1 (not_le.mpr h)⟩
  · intro i j hi hj hhi hlo
    have keyHigh : ∀ (k : Nat) (hk : k < (RiskJob.processedRows rows highTh medTh).length)
        (hkH : k < (RiskJob.pickHigh rows highTh).length),
        highTh ≤ ((RiskJob.processedRows rows highTh medTh).get ⟨k, hk⟩).2 := by
      intro k hk hkH
      have he : (RiskJob.processedRows rows highTh medTh).get ⟨k, hk⟩
          = (RiskJob.pickHigh rows highTh).get ⟨k, hkH⟩ := List.get_append k hkH
      rw [he]
      exact ((hhigh _).mp (List.get_mem _ _ _)).2
    have keyMed : ∀ (k : Nat) (hk : k < (RiskJob.processedRows rows highTh medTh).length)
        (hkM : (RiskJob.pickHigh rows highTh).length ≤ k),
        ((RiskJob.processedRows rows highTh medTh).get ⟨k, hk⟩).2 < highTh := by
      intro k hk hkM
      have hk2 : k - (RiskJob.pickHigh rows highTh).length
          < (RiskJob.pickMed rows highTh medTh).length := by
        have := hk
        rw [RiskJob.processedRows, List.length_append] at this
        omega
      have he : (RiskJob.processedRows rows highTh medTh).get ⟨k, hk⟩
          = (RiskJob.pickMed rows highTh medTh).get
              ⟨k - (RiskJob.pickHigh rows highTh).length, hk2⟩ :=
        List.get_append_right _ _ hkM
      rw [he]
      exact ((hmed _).mp (List.get_mem _ _ _)).2.2
    have hjge : (RiskJob.pickHigh rows highTh).length ≤ j := by
      by_contra h
      push_neg at h
      exact absurd (keyHigh j hj h) (not_le.mpr hlo)
    have hilt : i < (RiskJob.pickHigh rows highTh).length := by
      by_contra h
      push_neg at h
      exact absurd hhi (not_le.mpr (keyMed i hi h))
    omega

/-- Witness for C8: the bucket membership characterisation at a concrete
row and thresholds. -/
theorem level_thresholds_witness :
    (((⟨"1.2.3.4", 1, 1, 0, 3, 0, 0, 0, 1, 1, 1, 0, 0, 0, 0, 0⟩ : RiskJob.FeatRow), (95 : ℚ) / 100)
        ∈ RiskJob.pickHigh
            [((⟨"1.2.3.4", 1, 1, 0, 3, 0, 0, 0, 1, 1, 1, 0, 0, 0, 0, 0⟩ : RiskJob.FeatRow), (95 : ℚ) / 100)]
            (9 / 10)
      ↔ ((⟨"1.2.3.4", 1, 1, 0, 3, 0, 0, 0, 1, 1, 1, 0, 0, 0, 0, 0⟩ : RiskJob.FeatRow), (95 : ℚ) / 100)
          ∈ [((⟨"1.2.3.4", 1, 1, 0, 3, 0, 0, 0, 1, 1, 1, 0, 0, 0, 0, 0⟩ : RiskJob.FeatRow), (95 : ℚ) / 100)]
        ∧ (9 / 10 : ℚ) ≤ 95 / 100) :=
  (level_thresholds
    [((⟨"1.2.3.4", 1, 1, 0, 3, 0, 0, 0, 1, 1, 1, 0, 0, 0, 0, 0⟩ : RiskJob.FeatRow), (95 : ℚ) / 100)]
    (9 / 10) (8 / 10) (by norm_num)).1 _

/-! ### Cooldown lemmas -/

lemma addGroup_nil (cd now : Int) (lvl : String) (ttl : Int) (w : Nat)
    (st : RiskJob.LastSent) :
    RiskJob.add_group cd now lvl ttl w st [] = (st, []) := rfl

lemma addGroup_cons_skip (cd now : Int) (lvl : String) (ttl : Int) (w : Nat)
    (st : RiskJob.LastSent) (r : RiskJob.ScoredRow) (rest : List RiskJob.ScoredRow)
    (hc : RiskJob.inCooldown cd now st r.1.ip = true) :
    RiskJob.add_group cd now lvl ttl w st (r :: rest)
      = RiskJob.add_group cd now lvl ttl w st rest := by
  simp [RiskJob.add_group, hc]

lemma addGroup_cons_emit (cd now : Int) (lvl : String) (ttl : Int) (w : Nat)
    (st : RiskJob.LastSent) (r : RiskJob.ScoredRow) (rest : List RiskJob.ScoredRow)
    (hc : RiskJob.inCooldown cd now st r.1.ip = false) :
    RiskJob.add_group cd now lvl ttl w st (r :: rest)
      = ((RiskJob.add_group cd now lvl ttl w
            (fun x => if x = r.1.ip then some now else st x) rest).1,
         RiskJob.mkItem r lvl ttl w
           :: (RiskJob.add_group cd now lvl ttl w
                (fun x => if x = r.1.ip then some now else st x) rest).2) := by
  simp [RiskJob.add_group, hc]

lemma addGroup_blocked (cd now : Int) (lvl : String) (ttl : Int) (w : Nat)
    (ip : String) (t : Int) (hblock : now - t < cd) :
    ∀ (rows : List RiskJob.ScoredRow) (st : RiskJob.LastSent), st ip = some t →
      (RiskJob.add_group cd now lvl ttl w st rows).1 ip = some t
      ∧ ((RiskJob.add_group cd now lvl ttl w st rows).2.countP
          (fun it => it.ip == ip)) = 0 := by
  intro rows
  induction rows with
  | nil => intro st h; exact ⟨h, rfl⟩
  | cons r rest ih =>
    intro st h
    by_cases hc : RiskJob.inCooldown cd now st r.1.ip
    · rw [addGroup_cons_skip cd now lvl ttl w st r rest hc]
      exact ih st h
    · have hne : r.1.ip ≠ ip := by
        intro he
        rw [he] at hc
        exact hc (by simp [RiskJob.inCooldown, h, hblock])
      have hst2 : (fun x => if x = r.1.ip then some now else st x) ip = some t := by
        show (if ip = r.1.ip then some now else st ip) = some t
        rw [if_neg (Ne.symm hne)]
        exact h
      obtain ⟨ha, hb⟩ := ih (fun x => if x = r.1.ip then some now else st x) hst2
      rw [addGroup_cons_emit cd now lvl ttl w st r rest (by simpa using hc)]
      refine ⟨ha, ?_⟩
      rw [List.countP_cons]
      simp [RiskJob.mkItem, hne, hb]

lemma addGroup_count (cd now : Int) (lvl : String) (ttl : Int) (w : Nat)
    (ip : String) (hcd : 0 < cd) :
    ∀ (rows : List RiskJob.ScoredRow) (st : RiskJob.LastSent),
      ((RiskJob.add_group cd now lvl ttl w st rows).2.countP
          (fun it => it.ip == ip)) ≤ 1
      ∧ (((RiskJob.add_group cd now lvl ttl w st rows).2.countP
          (fun it => it.ip == ip)) = 0 →
          (RiskJob.add_group cd now lvl ttl w st rows).1 ip = st ip)
      ∧ (0 < ((RiskJob.add_group cd now lvl ttl w st rows).2.countP
          (fun it => it.ip == ip)) →
          (RiskJob.add_group cd now lvl ttl w st rows).1 ip = some now) := by
  intro rows
  induction rows with
  | nil =>
    intro st
    rw [addGroup_nil]
    exact ⟨by simp, fun _ => rfl, by simp⟩
  | cons r rest ih =>
    intro st
    by_cases hc : RiskJob.inCooldown cd now st r.1.ip
    · rw [addGroup_cons_skip cd now lvl ttl w st r rest hc]
      exact ih st
    · rw [addGroup_cons_emit cd now lvl ttl w st r rest (by simpa using hc)]
      by_cases hip : r.1.ip = ip
      · have hst2 : (fun x => if x = r.1.ip then some now else st x) ip = some now := by
          show (if ip = r.1.ip then some now else st ip) = some now
          rw [if_pos hip.symm]
        obtain ⟨ha, hb⟩ := addGroup_blocked cd now lvl ttl w ip now (by omega) rest
          (fun x => if x = r.1.ip then some now else st x) hst2
        refine ⟨?_, ?_, ?_⟩
        · simp only [List.countP_cons, RiskJob.mkItem, beq_iff_eq]
          rw [if_pos hip, hb]
        · intro h0
          simp only [List.countP_cons, RiskJob.mkItem, beq_iff_eq] at h0
          rw [if_pos hip, hb] at h0
          exact absurd h0 (by omega)
        · intro _
          exact ha
      · have hst2 : (fun x => if x = r.1.ip then some now else st x) ip = st ip := by
          show (if ip = r.1.ip then some now else st ip) = st ip
          rw [if_neg (fun he => hip (Eq.symm he))]
        obtain ⟨h1, h2, h3⟩ := ih (fun x => if x = r.1.ip then some now else st x)
        refine ⟨?_, ?_, ?_⟩
        · simp only [List.countP_cons, RiskJob.mkItem, beq_iff_eq]
          rw [if_neg hip, Nat.add_zero]
          exact h1
        · intro h0
          simp only [List.countP_cons, RiskJob.mkItem, beq_iff_eq] at h0
          rw [if_neg hip, Nat.add_zero] at h0
          exact (h2 h0).trans hst2
        · intro h0
          simp only [List.countP_cons, RiskJob.mkItem, beq_iff_eq] at h0
          rw [if_neg hip, Nat.add_zero] at h0
          exact h3 h0

lemma cycleItems_blocked (cd now hT mT : Int) (w : Nat) (ip : String) (t : Int)
    (hblock : now - t < cd) (st : RiskJob.LastSent)
    (high med : List RiskJob.ScoredRow) (hst : st ip = some t) :
    (RiskJob.cycleItems cd now hT mT w st high med).1 ip = some t
    ∧ ((RiskJob.cycleItems cd now hT mT w st high med).2.countP
        (fun it => it.ip == ip)) = 0 := by
  obtain ⟨ha1, hb1⟩ := addGroup_blocked cd now "high" hT w ip t hblock high st hst
  obtain ⟨ha2, hb2⟩ := addGroup_blocked cd now "medium" mT w ip t hblock med _ ha1
  exact ⟨ha2, by simp [RiskJob.cycleItems, List.countP_append, hb1, hb2]⟩

lemma cycleItems_count (cd now hT mT : Int) (w : Nat) (ip : String) (hcd : 0 < cd)
    (st : RiskJob.LastSent) (high med : List RiskJob.ScoredRow) :
    ((RiskJob.cycleItems cd now hT mT w st high med).2.countP
        (fun it => it.ip == ip)) ≤ 1
    ∧ (((RiskJob.cycleItems cd now hT mT w st high med).2.countP
        (fun it => it.ip == ip)) = 0 →
        (RiskJob.cycleItems cd now hT mT w st high med).1 ip = st ip)
    ∧ (0 < ((RiskJob.cycleItems cd now hT mT w st high med).2.countP
        (fun it => it.ip == ip)) →
        (RiskJob.cycleItems cd now hT mT w st high med).1 ip = some now) := by
  obtain ⟨h1a, h1b, h1c⟩ := addGroup_count cd now "high" hT w ip hcd high st
  have hsplit : ((RiskJob.cycleItems cd now hT mT w st high med).2.countP
      (fun it => it.ip == ip))
      = ((RiskJob.add_group cd now "high" hT w st high).2.countP
          (fun it => it.ip == ip))
        + ((RiskJob.add_group cd now "medium" mT w
            (RiskJob.add_group cd now "high" hT w st high).1 med).2.countP
          (fun it => it.ip == ip)) := by
    simp [RiskJob.cycleItems, List.countP_append]
  have hfst : (RiskJob.cycleItems cd now hT mT w st high med).1
      = (RiskJob.add_group cd now "medium" mT w
          (RiskJob.add_group cd now "high" hT w st high).1 med).1 := rfl
  obtain ⟨h2a, h2b, h2c⟩ := addGroup_count cd now "medium" mT w ip hcd med
    (RiskJob.add_group cd now "high" hT w st high).1
  rcases Nat.eq_zero_or_pos ((RiskJob.add_group cd now "high" hT w st high).2.countP
      (fun it => it.ip == ip)) with hz | hpos
  · refine ⟨?_, ?_, ?_⟩
    · rw [hsplit, hz]
      simpa using h2a
    · intro h0
      rw [hsplit, hz] at h0
      rw [hfst]
      exact (h2b (by omega)).trans (h1b hz)
    · intro h0
      rw [hsplit, hz] at h0
      rw [hfst]
      exact h2c (by omega)
  · have hone := h1c hpos
    obtain ⟨hb1, hb2⟩ := addGroup_blocked cd now "medium" mT w ip now (by omega) med
      _ hone
    refine ⟨?_, ?_, ?_⟩
    · rw [hsplit, hb2]
      omega
    · intro h0
      rw [hsplit, hb2] at h0
      omega
    · intro _
      rw [hfst]
      exact hb1

/-- Claim C1: when a row is processed against the shared cooldown map, an
IP still inside the cooldown window is suppressed (no item, no map
update); otherwise the map is set to `now` and exactly one item carrying
the bucket TTL is emitted.  Consequently two consecutive leveler cycles
within `COOLDOWN_SEC` emit at most one alert for a given IP, whatever the
buckets involved. -/
theorem cooldown_leveler_spec :
    (∀ (cd now : Int) (lvl : String) (ttl : Int) (w : Nat)
        (st : RiskJob.LastSent) (r : RiskJob.ScoredRow) (t : Int),
      st r.1.ip = some t → now - t < cd →
      RiskJob.add_group cd now lvl ttl w st [r] = (st, []))
    ∧ (∀ (cd now : Int) (lvl : String) (ttl : Int) (w : Nat)
        (st : RiskJob.LastSent) (r : RiskJob.ScoredRow),
      (∀ t, st r.1.ip = some t → cd ≤ now - t) →
      RiskJob.add_group cd now lvl ttl w st [r]
        = (fun x => if x = r.1.ip then some now else st x,
           [RiskJob.mkItem r lvl ttl w]))
    ∧ (∀ (cd now1 now2 hT mT : Int) (w : Nat) (st0 : RiskJob.LastSent)
        (high1 med1 high2 med2 : List RiskJob.ScoredRow) (ip : String),
      now1 ≤ now2 → now2 - now1 < cd →
      ((RiskJob.cycleItems cd now1 hT mT w st0 high1 med1).2
          ++ (RiskJob.cycleItems cd now2 hT mT w
                (RiskJob.cycleItems cd now1 hT mT w st0 high1 med1).1
                high2 med2).2).countP (fun it => it.ip == ip) ≤ 1) := by
  refine ⟨?_, ?_, ?_⟩
  · intro cd now lvl ttl w st r t hst hcool
    have hc : RiskJob.inCooldown cd now st r.1.ip = true := by
      simp [RiskJob.inCooldown, hst, hcool]
    rw [addGroup_cons_skip cd now lvl ttl w st r [] hc]
    rfl
  · intro cd now lvl ttl w st r hnot
    have hc : RiskJob.inCooldown cd now st r.1.ip = false := by
      cases hsome : st r.1.ip with
      | none => simp [RiskJob.inCooldown, hsome]
      | some t =>
        simp only [RiskJob.inCooldown, hsome, decide_eq_false_iff_not]
        exact not_lt.mpr (hnot t hsome)
    rw [addGroup_cons_emit cd now lvl ttl w st r [] hc]
    rfl
  · intro cd now1 now2 hT mT w st0 high1 med1 high2 med2 ip h12 hwin
    have hcd : 0 < cd := by omega
    obtain ⟨c1le, _c1z, c1pos⟩ := cycleItems_count cd now1 hT mT w ip hcd st0 high1 med1
    rw [List.countP_append]
    rcases Nat.eq_zero_or_pos
        ((RiskJob.cycleItems cd now1 hT mT w st0 high1 med1).2.countP
          (fun it => it.ip == ip)) with h0 | hpos
    · obtain ⟨c2le, _, _⟩ := cycleItems_count cd now2 hT mT w ip hcd
        (RiskJob.cycleItems cd now1 hT mT w st0 high1 med1).1 high2 med2
      omega
    · have hstate := c1pos hpos
      obtain ⟨_, hz⟩ := cycleItems_blocked cd now2 hT mT w ip now1 (by omega)
        (RiskJob.cycleItems cd now1 hT mT w st0 high1 med1).1 high2 med2 hstate
      omega

/-- Witness for C1: suppression, emission and the two-cycle bound at
concrete states, rows and times. -/
theorem cooldown_leveler_spec_witness :
    RiskJob.add_group 60 100 "high" 1800 60
        (fun x => if x = "a" then some 95 else none)
        [((⟨"a", 1, 1, 0, 3, 0, 0, 0, 1, 1, 1, 0, 0, 0, 0, 0⟩ : RiskJob.FeatRow), 1)]
      = (fun x => if x = "a" then some 95 else none, [])
    ∧ RiskJob.add_group 60 100 "high" 1800 60 (fun _ => none)
        [((⟨"a", 1, 1, 0, 3, 0, 0, 0, 1, 1, 1, 0, 0, 0, 0, 0⟩ : RiskJob.FeatRow), 1)]
      = (fun x => if x = "a" then some 100 else none,
         [RiskJob.mkItem
            ((⟨"a", 1, 1, 0, 3, 0, 0, 0, 1, 1, 1, 0, 0, 0, 0, 0⟩ : RiskJob.FeatRow), 1)
            "high" 1800 60])
    ∧ ((RiskJob.cycleItems 60 100 1800 600 60 (fun _ => none)
          [((⟨"a", 1, 1, 0, 3, 0, 0, 0, 1, 1, 1, 0, 0, 0, 0, 0⟩ : RiskJob.FeatRow), 1)]
          []).2
        ++ (RiskJob.cycleItems 60 130 1800 600 60
              (RiskJob.cycleItems 60 100 1800 600 60 (fun _ => none)
                [((⟨"a", 1, 1, 0, 3, 0, 0, 0, 1, 1, 1, 0, 0, 0, 0, 0⟩ : RiskJob.FeatRow), 1)]
                []).1
              []
              [((⟨"a", 1, 1, 0, 3, 0, 0, 0, 1, 1, 1, 0, 0, 0, 0, 0⟩ : RiskJob.FeatRow), 1)]).2
       ).countP (fun it => it.ip == "a") ≤ 1 :=
  ⟨cooldown_leveler_spec.1 60 100 "high" 1800 60
     (fun x => if x = "a" then some 95 else none)
     ((⟨"a", 1, 1, 0, 3, 0, 0, 0, 1, 1, 1, 0, 0, 0, 0, 0⟩ : RiskJob.FeatRow), 1)
     95 rfl (by decide),
   cooldown_leveler_spec.2.1 60 100 "high" 1800 60 (fun _ => none)
     ((⟨"a", 1, 1, 0, 3, 0, 0, 0, 1, 1, 1, 0, 0, 0, 0, 0⟩ : RiskJob.FeatRow), 1)
     (fun t h => Option.noConfusion h),
   cooldown_leveler_spec.2.2 60 100 130 1800 600 60 (fun _ => none)
     [((⟨"a", 1, 1, 0, 3, 0, 0, 0, 1, 1, 1, 0, 0, 0, 0, 0⟩ : RiskJob.FeatRow), 1)] []
     []
     [((⟨"a", 1, 1, 0, 3, 0, 0, 0, 1, 1, 1, 0, 0, 0, 0, 0⟩ : RiskJob.FeatRow), 1)]
     "a" (by decide) (by decide)⟩

lemma addGroup_ips_sublist (cd now : Int) (lvl : String) (ttl : Int) (w : Nat) :
    ∀ (rows : List RiskJob.ScoredRow) (st : RiskJob.LastSent),
      ((RiskJob.add_group cd now lvl ttl w st rows).2.map (·.ip)).Sublist
        (rows.map (fun r => r.1.ip)) := by
  intro rows
  induction rows with
  | nil => intro st; rw [addGroup_nil]; exact List.Sublist.refl _
  | cons r rest ih =>
    intro st
    by_cases hc : RiskJob.inCooldown cd now st r.1.ip
    · rw [addGroup_cons_skip cd now lvl ttl w st r rest hc]
      exact (ih st).cons _
    · rw [addGroup_cons_emit cd now lvl ttl w st r rest (by simpa using hc)]
      exact (ih (fun x => if x = r.1.ip then some now else st x)).cons₂ _

/-- Claim C10: within one scheduler cycle, aggregation produces one feature
row per IP, the high and medium buckets are disjoint, and the published
items list never contains the same IP twice. -/
theorem cycle_one_alert_per_ip (events : List RiskJob.Event) (w : Nat)
    (aT sT : List Int) (score : RiskJob.FeatRow → ℚ) (highTh medTh : ℚ)
    (cd now hTtl mTtl : Int) (st : RiskJob.LastSent) :
    ((RiskJob.build_features_from_events events w aT sT).map (·.ip)).Nodup
    ∧ (∀ r, r ∈ RiskJob.pickHigh
          ((RiskJob.build_features_from_events events w aT sT).map
            (fun f => (f, score f))) highTh →
        r ∉ RiskJob.pickMed
          ((RiskJob.build_features_from_events events w aT sT).map
            (fun f => (f, score f))) highTh medTh)
    ∧ (((RiskJob.run_cycle events w aT sT score highTh medTh cd now hTtl mTtl
          st).2).map (·.ip)).Nodup := by
  have hfeats : ((RiskJob.build_features_from_events events w aT sT).map
      (·.ip)).Nodup := by
    rw [RiskJob.build_features_from_events, List.map_map]
    have he : ((fun r : RiskJob.FeatRow => r.ip) ∘ fun ip =>
        RiskJob.buildRow ip (events.filter (fun e => e.ip == ip)) w aT sT)
        = fun ip => ip := funext fun ip => rfl
    rw [he, List.map_id']
    exact List.nodup_dedup _
  have hscoredIps : (((RiskJob.build_features_from_events events w aT sT).map
      (fun f => (f, score f))).map (fun r : RiskJob.ScoredRow => r.1.ip)).Nodup := by
    rw [List.map_map]
    exact hfeats
  have hsortIps : ((RiskJob.sortByScoreDesc
      ((RiskJob.build_features_from_events events w aT sT).map
        (fun f => (f, score f)))).map (fun r : RiskJob.ScoredRow => r.1.ip)).Nodup :=
    (((List.mergeSort_perm _ _).map _).nodup_iff).mpr hscoredIps
  have hHips : ((RiskJob.pickHigh
      ((RiskJob.build_features_from_events events w aT sT).map
        (fun f => (f, score f))) highTh).map
      (fun r : RiskJob.ScoredRow => r.1.ip)).Nodup :=
    ((List.filter_sublist _).map _).nodup hsortIps
  have hMips : ((RiskJob.pickMed
      ((RiskJob.build_features_from_events events w aT sT).map
        (fun f => (f, score f))) highTh medTh).map
      (fun r : RiskJob.ScoredRow => r.1.ip)).Nodup :=
    ((List.filter_sublist _).map _).nodup hsortIps
  have hdisjRow : ∀ r, r ∈ RiskJob.pickHigh
      ((RiskJob.build_features_from_events events w aT sT).map
        (fun f => (f, score f))) highTh →
      r ∉ RiskJob.pickMed
        ((RiskJob.build_features_from_events events w aT sT).map
          (fun f => (f, score f))) highTh medTh := by
    intro r hrH hrM
    have h1 := (List.mem_filter.mp hrH).2
    have h2 := (List.mem_filter.mp hrM).2
    simp only [decide_eq_true_eq, Bool.and_eq_true] at h1 h2
    exact absurd h1 (not_le.mpr h2.2)
  refine ⟨hfeats, hdisjRow, ?_⟩
  have hdisjIps : ((RiskJob.pickHigh
      ((RiskJob.build_features_from_events events w aT sT).map
        (fun f => (f, score f))) highTh).map
      (fun r : RiskJob.ScoredRow => r.1.ip)).Disjoint
      ((RiskJob.pickMed
        ((RiskJob.build_features_from_events events w aT sT).map
          (fun f => (f, score f))) highTh medTh).map
      (fun r : RiskJob.ScoredRow => r.1.ip)) := by
    intro x hx1 hx2
    obtain ⟨r1, hr1, hx1e⟩ := List.mem_map.mp hx1
    obtain ⟨r2, hr2, hx2e⟩ := List.mem_map.mp hx2
    have hr1s : r1 ∈ RiskJob.sortByScoreDesc _ := (List.filter_sublist _).subset hr1
    have hr2s : r2 ∈ RiskJob.sortByScoreDesc _ := (List.filter_sublist _).subset hr2
    have heq : r1 = r2 :=
      List.inj_on_of_nodup_map hsortIps hr1s hr2s (by rw [hx1e, hx2e])
    exact hdisjRow r1 hr1 (heq ▸ hr2)
  have hrc : (RiskJob.run_cycle events w aT sT score highTh medTh cd now hTtl mTtl
        st).2
      = (RiskJob.add_group cd now "high" hTtl w st
          (RiskJob.pickHigh
            ((RiskJob.build_features_from_events events w aT sT).map
              (fun f => (f, score f))) highTh)).2
        ++ (RiskJob.add_group cd now "medium" mTtl w
            (RiskJob.add_group cd now "high" hTtl w st
              (RiskJob.pickHigh
                ((RiskJob.build_features_from_events events w aT sT).map
                  (fun f => (f, score f))) highTh)).1
            (RiskJob.pickMed
              ((RiskJob.build_features_from_events events w aT sT).map
                (fun f => (f, score f))) highTh medTh)).2 := rfl
  rw [hrc, List.map_append]
  have hs1 := addGroup_ips_sublist cd now "high" hTtl w
    (RiskJob.pickHigh
      ((RiskJob.build_features_from_events events w aT sT).map
        (fun f => (f, score f))) highTh) st
  have hs2 := addGroup_ips_sublist cd now "medium" mTtl w
    (RiskJob.pickMed
      ((RiskJob.build_features_from_events events w aT sT).map
        (fun f => (f, score f))) highTh medTh)
    (RiskJob.add_group cd now "high" hTtl w st
      (RiskJob.pickHigh
        ((RiskJob.build_features_from_events events w aT sT).map
          (fun f => (f, score f))) highTh)).1
  exact List.Nodup.append (hs1.nodup hHips) (hs2.nodup hMips)
    (fun x hx1 hx2 => hdisjIps (hs1.subset hx1) (hs2.subset hx2))

/-- Counterexample for claim C2: when the artifact file exists but loading
it raises, the exception is not caught: the cycle does not degrade to a
no-op, it crashes the scheduler loop. -/
theorem artifact_load_error_counterexample :
    RiskJob.main_loop_artifact_phase ⟨true, 5, .error "unreadable artifact"⟩
        ⟨none, none⟩
      = .crashed "unreadable artifact"
    ∧ RiskJob.main_loop_artifact_phase ⟨true, 5, .error "unreadable artifact"⟩
        ⟨none, none⟩
      ≠ .idleNoArtifact ⟨none, none⟩ :=
  ⟨rfl, by decide⟩

/-- Claim C2 as amended: a missing artifact file makes the cycle a no-op
(state cleared, no scoring, retried next interval) without crashing; but
when the file exists, the cached-copy shortcut does not apply, and loading
raises, the error propagates out of the loop (the loop crashes). -/
theorem artifact_load_amended :
    (∀ (fs : RiskJob.ArtifactFile) (st : RiskJob.LoadState),
      fs.fileExists = false →
      RiskJob.load_model_artifact_if_changed fs st = .ok ⟨none, none⟩
      ∧ RiskJob.main_loop_artifact_phase fs st = .idleNoArtifact ⟨none, none⟩)
    ∧ (∀ (fs : RiskJob.ArtifactFile) (st : RiskJob.LoadState) (e : String),
      fs.fileExists = true → fs.loadResult = .error e →
      ¬(st.mtime = some fs.mtime ∧ st.artifact ≠ none) →
      RiskJob.main_loop_artifact_phase fs st = .crashed e) := by
  constructor
  · intro fs st h
    have h1 : RiskJob.load_model_artifact_if_changed fs st = .ok ⟨none, none⟩ := by
      simp [RiskJob.load_model_artifact_if_changed, h]
    exact ⟨h1, by simp [RiskJob.main_loop_artifact_phase, h1]⟩
  · intro fs st e hex hload hnc
    have hcond : (st.mtime == some fs.mtime && !(st.artifact == none)) = false := by
      by_cases h1 : st.mtime = some fs.mtime
      · have h2 : st.artifact = none := by
          by_contra h3
          exact hnc ⟨h1, h3⟩
        simp [h2]
      · simp [h1]
    simp [RiskJob.main_loop_artifact_phase, RiskJob.load_model_artifact_if_changed,
      hex, hcond, hload]

/-- Witness for C2 (amended): the no-op on a concrete missing file and the
crash on a concrete unreadable file. -/
theorem artifact_load_amended_witness :
    RiskJob.main_loop_artifact_phase ⟨false, 0, .ok ⟨"supervised"⟩⟩
        ⟨some 3, some ⟨"supervised"⟩⟩
      = .idleNoArtifact ⟨none, none⟩
    ∧ RiskJob.main_loop_artifact_phase ⟨true, 7, .error "corrupt"⟩
        ⟨some 3, some ⟨"supervised"⟩⟩
      = .crashed "corrupt" :=
  ⟨(artifact_load_amended.1 ⟨false, 0, .ok ⟨"supervised"⟩⟩
      ⟨some 3, some ⟨"supervised"⟩⟩ rfl).2,
   artifact_load_amended.2 ⟨true, 7, .error "corrupt"⟩
      ⟨some 3, some ⟨"supervised"⟩⟩ "corrupt" rfl rfl (by decide)⟩

end AbDetect
